import Mathlib

/-!
Verification of the two agent pipelines in this repository: the stock-ticker
analysis agent (supervisor routing over a fixed worker list) and the
newsletter agent (fixed fan-out workflow graph).  Python dictionaries are
embedded as insertion-ordered association lists, Python session state as an
explicit structure, and each step function as a pure Lean function faithful
to its source.
-/

/-- Python `dict.__setitem__` / `dict.update` for one key on an
insertion-ordered association list: overwrite in place when the key is
present, otherwise append at the end. -/
def pyUpdate {α : Type} (d : List (String × α)) (k : String) (v : α) :
    List (String × α) :=
  if d.any (fun p => p.1 = k) then
    d.map (fun p => if p.1 = k then (k, v) else p)
  else d ++ [(k, v)]

/-- Keys of an association list, in insertion order (Python `dict.keys()`). -/
def pyKeys {α : Type} (d : List (String × α)) : List String :=
  d.map Prod.fst

/-- First-match lookup (sound for the nodup-key dicts produced by `pyUpdate`). -/
def pyGet {α : Type} : List (String × α) → String → Option α
  | [], _ => none
  | p :: rest, k => if p.1 = k then some p.2 else pyGet rest k

namespace StockAgent

/-- The list `MEMBERS` from stock_ticker_analysis_agent/state.py line 8. -/
def MEMBERS : List String := ["Researcher", "Stock_Analyzer", "Chart_Generator"]

/-- The ceiling `self.max_trials = 1` from agent.py line 185. -/
def max_trials : Nat := 1

/-- Python `str.replace(a, b)` where the pattern is a single character:
a per-character map over the string. -/
def swapChars (a b : Char) (s : String) : String :=
  String.mk (s.data.map (fun c => if c = a then b else c))

/-- Display name: `agent_name.replace("_", " ")` (agent.py lines 61, 231). -/
def toDisplay (s : String) : String := swapChars '_' ' ' s

/-- Member name: `current_agent.replace(" ", "_")` (agent.py line 254). -/
def toMember (s : String) : String := swapChars ' ' '_' s

/-- The Streamlit session state consulted by `supervisor_agent` and updated
by the `with_status` decorator: `st.session_state.current_agent` (a display
name; `none` when the key is absent) and `st.session_state.agent_trials`
(a dict from display names to counts; `none` when the key is absent). -/
structure Session where
  current_agent : Option String
  agent_trials : Option (List (String × Nat))
deriving DecidableEq

/-- Lookup `st.session_state.agent_trials.get(display_name, 0)` (agent.py
line 232). -/
def getTrials (t : List (String × Nat)) (k : String) : Nat :=
  (pyGet t k).getD 0

/-- Agent.py lines 235-247: `MEMBERS.index(next_agent)`; move to the member
after the requested one, `"FINISH"` when the requested one is last or the
`ValueError` branch fires. -/
def advance_from (agent : String) : String :=
  match MEMBERS.findIdx? (· = agent) with
  | some i => if i < MEMBERS.length - 1 then MEMBERS.getD (i + 1) "" else "FINISH"
  | none => "FINISH"

/-- Agent.py lines 253-265: when the tentative route is `"FINISH"`, look up
the recorded current agent; confirm `"FINISH"` only when it is the last
member, otherwise force the member after it (first member on `ValueError`).
The source reads `st.session_state.current_agent` unconditionally here; the
earlier first-call branch guarantees it is present, so the absent case
(modelled with the empty string) is unreachable. -/
def finish_check (current_display : String) : String :=
  match MEMBERS.findIdx? (· = toMember current_display) with
  | some i => if i < MEMBERS.length - 1 then MEMBERS.getD (i + 1) "" else "FINISH"
  | none => MEMBERS.headD ""

/-- The routing of `StockTickerAnalysisAgent.supervisor_agent`, agent.py
lines 220-267,
as a function of the session state and of the LLM route decision
`response.next` (the network call itself is abstracted into that input). -/
def supervisor_route (sess : Session) (llm_next : String) : String :=
  if llm_next = "supervisor" ∨ sess.current_agent = none ∨
      sess.current_agent = some "supervisor" then
    MEMBERS.headD ""
  else
    let next1 :=
      match sess.agent_trials with
      | some trials =>
        if llm_next ≠ "FINISH" then
          if max_trials ≤ getTrials trials (toDisplay llm_next) then
            advance_from llm_next
          else llm_next
        else llm_next
      | none => llm_next
    if next1 = "FINISH" then finish_check (sess.current_agent.getD "")
    else next1

/-- The session bookkeeping the `with_status` decorator performs when a
worker node runs (agent.py lines 49-70 and 131): reset the trial count of the worker
to 1 when switching agents, increment it when the same agent runs
again, and record the display name of the worker as the current agent. -/
def run_worker (sess : Session) (agent_name : String) : Session :=
  let d := toDisplay agent_name
  let trials := sess.agent_trials.getD []
  let trials2 :=
    if sess.current_agent ≠ some d then pyUpdate trials d 1
    else pyUpdate trials d (getTrials trials d + 1)
  Session.mk (some d) (some trials2)

/-- The run as driven by graph.py: every worker hands control back to the
supervisor, whose route selects the next worker or ends the run.  This
trace records the routes taken when the LLM decision is the constant
`"Researcher"`, stopping (with a final `"FINISH"` entry) when the
supervisor asserts the terminal marker. -/
def traceConstA : Nat → Session → List String
  | 0, _ => []
  | n + 1, s =>
    let r := supervisor_route s "Researcher"
    if r = "FINISH" then ["FINISH"]
    else r :: traceConstA n (run_worker s r)

/-- The session at the start of a run: neither key is in session state. -/
def sess0 : Session := Session.mk none none

/-- The session after the Researcher has run once and the Stock Analyzer
has run `m + 1` times in a row. -/
def sessSA (m : Nat) : Session :=
  Session.mk (some "Stock Analyzer")
    (some [("Researcher", 1), ("Stock Analyzer", m + 1)])

/-- A session in which every worker has been visited and the recorded
current agent is the last member. -/
def sessAllVisited : Session :=
  Session.mk (some "Chart Generator")
    (some [("Researcher", 1), ("Stock Analyzer", 1), ("Chart Generator", 1)])

end StockAgent

namespace Newsletter

/-- One article record as built by `NewsletterTool.search_news_for_subtheme`
(tool.py lines 60-67): title, image URL (empty string when none), raw
content text. -/
structure Article where
  title : String
  image_url : String
  raw_content : String
deriving DecidableEq

/-- Outcome of one external Tavily search call for a sub-theme: either the
call returned a (possibly empty) list of articles, or it raised. -/
inductive SearchOutcome where
  | ok (articles : List Article)
  | err
deriving DecidableEq

/-- The article list a given outcome yields. -/
def articlesOf : SearchOutcome → List Article
  | SearchOutcome.ok arts => arts
  | SearchOutcome.err => []

/-- The tool call `NewsletterTool.search_news_for_subtheme` (tool.py lines
32-87) as a
function of the search outcome: on success it returns the single-key dict
`{subtheme: article_info}` (empty-but-valid when the search found nothing),
and the `except` branch returns `{subtheme: []}` instead of raising. -/
def search_news_for_subtheme (subtheme : String) (outcome : SearchOutcome) :
    String × List Article :=
  match outcome with
  | SearchOutcome.ok arts => (subtheme, arts)
  | SearchOutcome.err => (subtheme, [])

/-- The message of the `ValueError` raised in node.py lines 92-94. -/
def noContentMsg : String :=
  "No articles found for any sub-theme. Please try a different keyword."

/-- The step `NewsletterNode.search_sub_theme_articles` (node.py lines
73-95): fan
out one search per sub-theme, union the single-key result dicts, and raise
exactly when no sub-theme has any article (`not any(...)` on the dict
values). -/
def search_sub_theme_articles (subthemes : List String)
    (search : String → SearchOutcome) :
    Except String (List (String × List Article)) :=
  let results := subthemes.map (fun s => search_news_for_subtheme s (search s))
  let sub_theme_articles := results.foldl (fun acc p => pyUpdate acc p.1 p.2) []
  if sub_theme_articles.all (fun p => p.2.isEmpty) then
    Except.error noContentMsg
  else Except.ok sub_theme_articles

/-- The record `NewsletterThemeOutput` (state.py lines 13-17, node.py lines
15-23). -/
structure NewsletterThemeOutput where
  theme : String
  sub_themes : List String
deriving DecidableEq

/-- The step `NewsletterNode.generate_themes` (node.py lines 46-71) as a
function of
the structured LLM output: the stored theme record is the generated one
with `sub_themes = sub_themes[:5]`. -/
def generate_themes (llm_output : NewsletterThemeOutput) : NewsletterThemeOutput :=
  NewsletterThemeOutput.mk llm_output.theme (llm_output.sub_themes.take 5)

/-- The `write_section_{i}` node closure from graph.py line 30: it reads
`state["newsletter_theme"].sub_themes[i]` unconditionally, so the step
fails with an `IndexError` when the list is shorter than `i + 1`. -/
def write_section_node (i : Nat) (sub_themes : List String) :
    Except String String :=
  match sub_themes.get? i with
  | some s => Except.ok s
  | none => Except.error "IndexError: list index out of range"

/-- The step `NewsletterNode.write_section_async` (node.py lines 109-143)
as a
function of the text generated by the LLM: the partial update it returns for
the `results` field, the single-key dict `{sub_theme: response.content}`. -/
def write_section (sub_theme : String) (llm_text : String) :
    List (String × String) :=
  [(sub_theme, llm_text)]

/-- Helper: concatenation of a list of strings in order. -/
def concatStrings : List String → String
  | [] => ""
  | s :: rest => s ++ concatStrings rest

/-- The step `NewsletterNode.aggregate_results` (node.py lines 145-158):
start from
the `"# {theme}\n\n"` heading and append `"## {sub_theme}\n{content}\n\n"`
for each entry of the `results` dict in order. -/
def aggregate_results (theme : String) (results : List (String × String)) :
    String :=
  results.foldl (fun acc p => acc ++ ("## " ++ p.1 ++ "\n" ++ p.2 ++ "\n\n"))
    ("# " ++ theme ++ "\n\n")

/-- The reducer `merge_dicts` (state.py lines 9-10): Python
`{**left, **right}`, i.e.
start from `left` and update with every entry of `right` in order. -/
def merge_dicts (left right : List (String × String)) :
    List (String × String) :=
  right.foldl (fun acc p => pyUpdate acc p.1 p.2) left

/-- Modelled from the spec: the langgraph `add_messages` reducer annotated on
the `messages` field (state.py line 28; the langgraph library is not part
of the sources of this repository).  Per the per-field merge policy of the
spec, the
messages field merges by append. -/
def add_messages (left right : List String) : List String := left ++ right

/-- The shared `State` (state.py lines 20-29), with messages kept abstract
as their
content strings. -/
structure State where
  keyword : String
  article_titles : List String
  newsletter_theme : NewsletterThemeOutput
  sub_theme_articles : List (String × List Article)
  results : List (String × String)
  messages : List String
  language : String

/-- A partial update of one step: the subset of `State` fields it returns. -/
structure StateUpdate where
  keyword : Option String
  article_titles : Option (List String)
  newsletter_theme : Option NewsletterThemeOutput
  sub_theme_articles : Option (List (String × List Article))
  results : Option (List (String × String))
  messages : Option (List String)
  language : Option String

/-- Modelled from the spec: how the executor (the langgraph library, not
under the sources of this repository) merges the partial update of a step
into the
shared state — each field annotated with a reducer in state.py uses it
(`merge_dicts` for `results`, `add_messages` for `messages`), every other
field is replaced by the incoming value when the update carries one. -/
def mergeState (s : State) (u : StateUpdate) : State :=
  State.mk
    (u.keyword.getD s.keyword)
    (u.article_titles.getD s.article_titles)
    (u.newsletter_theme.getD s.newsletter_theme)
    (u.sub_theme_articles.getD s.sub_theme_articles)
    (match u.results with
     | some r => merge_dicts s.results r
     | none => s.results)
    (match u.messages with
     | some m => add_messages s.messages m
     | none => s.messages)
    (u.language.getD s.language)

/-- The declared step names of the newsletter graph (graph.py lines 23-33). -/
def newsletterNodes : List String :=
  ["search_news", "generate_themes", "search_sub_theme_articles",
   "write_section_0", "write_section_1", "write_section_2",
   "write_section_3", "write_section_4", "aggregate", "edit_newsletter"]

/-- The declared edges of the newsletter graph (graph.py lines 36-43), with
the reserved start and end markers written `"START"` and `"END"`. -/
def newsletterEdges : List (String × String) :=
  [("START", "search_news"),
   ("search_news", "generate_themes"),
   ("generate_themes", "search_sub_theme_articles"),
   ("search_sub_theme_articles", "write_section_0"),
   ("write_section_0", "aggregate"),
   ("search_sub_theme_articles", "write_section_1"),
   ("write_section_1", "aggregate"),
   ("search_sub_theme_articles", "write_section_2"),
   ("write_section_2", "aggregate"),
   ("search_sub_theme_articles", "write_section_3"),
   ("write_section_3", "aggregate"),
   ("search_sub_theme_articles", "write_section_4"),
   ("write_section_4", "aggregate"),
   ("aggregate", "edit_newsletter"),
   ("edit_newsletter", "END")]

/-- Successors of a node under the declared edges. -/
def successors (edges : List (String × String)) (n : String) : List String :=
  (edges.filter (fun e => e.1 = n)).map Prod.snd

/-- Modelled from the spec: one executor superstep — the next frontier is
the set of successors of every step that just completed (each listed once). -/
def nextFrontier (edges : List (String × String)) (f : List String) :
    List String :=
  ((f.map (successors edges)).flatten).eraseDups

/-- Modelled from the spec: the workflow executor (provided by the
langgraph library, not under the sources of this repository) drives the
graph in
supersteps from the start marker; every step of a superstep completes, and
only then do their successors run — the join barrier of §5 of the spec.
The fuel argument bounds the number of supersteps; the run stops when only
the end marker remains. -/
def schedule (edges : List (String × String)) :
    Nat → List String → List (List String)
  | 0, _ => []
  | n + 1, f =>
    let f2 := f.filter (fun x => x ≠ "END")
    if f2 = [] then [] else f2 :: schedule edges n (nextFrontier edges f2)

/-- The superstep schedule of the newsletter graph. -/
def newsletterSchedule : List (List String) :=
  schedule newsletterEdges 10 (nextFrontier newsletterEdges ["START"])

/-- The `results` dict obtained by merging the partial updates of the five
parallel `write_section` steps, in order, into an initially absent field. -/
def mergedResults (subs : List String) (texts : String → String) :
    List (String × String) :=
  (subs.map (fun s => write_section s (texts s))).foldl merge_dicts []

end Newsletter

/-! ## Theorems -/

namespace StockAgent

/-- Once the run is stuck on the Stock Analyzer with the Researcher trial
count at the ceiling, every further supervisor cycle under the constant
`"Researcher"` LLM decision routes to the Stock Analyzer again. -/
theorem traceConstA_stuck : ∀ n m : Nat,
    traceConstA n (sessSA m) = List.replicate n "Stock_Analyzer" := by
  intro n
  induction n with
  | zero => intro m; rfl
  | succ k ih =>
    intro m
    rw [show traceConstA (k + 1) (sessSA m) =
      "Stock_Analyzer" :: traceConstA k (sessSA (m + 1)) from rfl, ih (m + 1)]
    rfl

/-- Past the first-call branch, with the trials dict present, the
supervisor route is: advance from the requested member when its display
name is at the ceiling (running the `"FINISH"` result through the
all-visited check), otherwise honour the request. -/
theorem route_past_first_block (d m : String) (t : List (String × Nat))
    (hd : d ≠ "supervisor") (hm : m ≠ "supervisor") (hmf : m ≠ "FINISH") :
    supervisor_route (Session.mk (some d) (some t)) m =
      if max_trials ≤ getTrials t (toDisplay m) then
        (if advance_from m = "FINISH" then finish_check d else advance_from m)
      else m := by
  unfold supervisor_route
  rw [if_neg]
  · show (if (if m ≠ "FINISH" then
          (if max_trials ≤ getTrials t (toDisplay m) then advance_from m else m)
        else m) = "FINISH" then
        finish_check ((some d : Option String).getD "")
      else (if m ≠ "FINISH" then
          (if max_trials ≤ getTrials t (toDisplay m) then advance_from m else m)
        else m)) = _
    rw [if_pos hmf]
    by_cases hc : max_trials ≤ getTrials t (toDisplay m)
    · rw [if_pos hc, if_pos hc]
      rfl
    · rw [if_neg hc, if_neg hc, if_neg hmf]
  · push_neg
    refine ⟨hm, by simp, by simp [hd]⟩

/-- C1, counterexample: with trial ceiling 1 and the LLM route decision
constantly requesting the first worker, the run does NOT progress
Researcher → Stock_Analyzer → Chart_Generator → FINISH: after the
Researcher the supervisor forces the Stock Analyzer on every cycle (the
ceiling override advances from the requested worker, not the current one),
so the fourth cycle still routes a worker; and in a session where every
worker has been visited, a request for the Researcher yields
`"Stock_Analyzer"`, not the terminal marker. -/
theorem claim_C1_counterexample :
    traceConstA 4 sess0 =
      ["Researcher", "Stock_Analyzer", "Stock_Analyzer", "Stock_Analyzer"] ∧
    traceConstA 4 sess0 ≠
      ["Researcher", "Stock_Analyzer", "Chart_Generator", "FINISH"] ∧
    supervisor_route sessAllVisited "Researcher" = "Stock_Analyzer" ∧
    supervisor_route sessAllVisited "Researcher" ≠ "FINISH" := by
  refine ⟨rfl, by decide, rfl, by decide⟩

/-- C1 (amended): with trial ceiling 1 and the LLM route decision
constantly requesting the first worker, the supervisor forces the
Researcher once and then the Stock Analyzer on every subsequent cycle —
the run never reaches the Chart Generator or the terminal marker, because
the ceiling override advances from the requested worker rather than the
current one.  When every worker has been visited and the recorded current
agent is the last member, the supervisor returns `"FINISH"` exactly when
the LLM decision is `"FINISH"` or names the last member; a request for an
earlier member at the ceiling advances to the member after it instead. -/
theorem claim_C1 (n : Nat) :
    traceConstA (n + 2) sess0 =
      "Researcher" :: List.replicate (n + 1) "Stock_Analyzer" ∧
    (∀ x ∈ "FINISH" :: MEMBERS,
      (supervisor_route sessAllVisited x = "FINISH" ↔
        x = "FINISH" ∨ x = "Chart_Generator")) := by
  constructor
  · rw [show traceConstA (n + 2) sess0 =
      "Researcher" :: "Stock_Analyzer" :: traceConstA n (sessSA 0) from rfl,
      traceConstA_stuck n 0]
    rfl
  · decide

/-- C1, witness: the amended theorem applied at two supervisor cycles and
at the LLM decision `"Researcher"` in the all-visited session. -/
theorem claim_C1_witness :
    traceConstA (0 + 2) sess0 =
      "Researcher" :: List.replicate (0 + 1) "Stock_Analyzer" ∧
    (supervisor_route sessAllVisited "Researcher" = "FINISH" ↔
      "Researcher" = "FINISH" ∨ "Researcher" = "Chart_Generator") :=
  ⟨(claim_C1 0).1, (claim_C1 0).2 "Researcher" (by decide)⟩

/-- C2, counterexample: a supervisor invocation where the LLM names the
last worker of the order (`"Chart_Generator"`) whose recorded attempt count
has reached the ceiling, but the recorded current agent is the Stock
Analyzer: instead of returning `"FINISH"` as the claim states, the
supervisor returns `"Chart_Generator"` — the tentative terminal marker is
overridden by the all-visited check. -/
theorem claim_C2_counterexample :
    getTrials [("Researcher", 1), ("Stock Analyzer", 1), ("Chart Generator", 1)]
      (toDisplay "Chart_Generator") = 1 ∧
    supervisor_route
      (Session.mk (some "Stock Analyzer")
        (some [("Researcher", 1), ("Stock Analyzer", 1), ("Chart Generator", 1)]))
      "Chart_Generator" = "Chart_Generator" ∧
    ("Chart_Generator" : String) ≠ "FINISH" := by
  refine ⟨rfl, rfl, by decide⟩

/-- C2 (amended): past the first-call branch (the recorded current agent is
a worker display name) and with the trials dict present, whenever the LLM
names a worker whose recorded attempt count has reached the ceiling the
supervisor overrides it: a non-last worker is replaced by the next worker
in the hard-coded order, and the last worker is replaced by `"FINISH"` only
when the recorded current agent is the last member — otherwise by the
member after the current agent.  A named worker whose count is below the
ceiling is returned unchanged. -/
theorem claim_C2 (d : String) (t : List (String × Nat))
    (hd : d ∈ ["Researcher", "Stock Analyzer", "Chart Generator"]) :
    (1 ≤ getTrials t "Researcher" →
      supervisor_route (Session.mk (some d) (some t)) "Researcher" =
        "Stock_Analyzer") ∧
    (1 ≤ getTrials t "Stock Analyzer" →
      supervisor_route (Session.mk (some d) (some t)) "Stock_Analyzer" =
        "Chart_Generator") ∧
    (1 ≤ getTrials t "Chart Generator" →
      supervisor_route (Session.mk (some d) (some t)) "Chart_Generator" =
        if d = "Chart Generator" then "FINISH"
        else if d = "Researcher" then "Stock_Analyzer"
        else "Chart_Generator") ∧
    (∀ m ∈ MEMBERS, getTrials t (toDisplay m) = 0 →
      supervisor_route (Session.mk (some d) (some t)) m = m) := by
  simp only [List.mem_cons, List.not_mem_nil, or_false] at hd
  have hd2 : d ≠ "supervisor" := by
    rcases hd with rfl | rfl | rfl
    all_goals decide
  refine ⟨?_, ?_, ?_, ?_⟩
  · intro ht
    rw [route_past_first_block d "Researcher" t hd2 (by decide) (by decide),
      if_pos (show max_trials ≤ getTrials t (toDisplay "Researcher") from ht),
      if_neg (by decide)]
    rfl
  · intro ht
    rw [route_past_first_block d "Stock_Analyzer" t hd2 (by decide) (by decide),
      if_pos (show max_trials ≤ getTrials t (toDisplay "Stock_Analyzer") from ht),
      if_neg (by decide)]
    rfl
  · intro ht
    rw [route_past_first_block d "Chart_Generator" t hd2 (by decide) (by decide),
      if_pos (show max_trials ≤ getTrials t (toDisplay "Chart_Generator") from ht),
      if_pos (show advance_from "Chart_Generator" = "FINISH" from rfl)]
    rcases hd with rfl | rfl | rfl
    · rfl
    · rfl
    · rfl
  · intro m hm ht
    have hn : ¬ max_trials ≤ getTrials t (toDisplay m) := by
      show ¬ max_trials ≤ getTrials t (toDisplay m)
      rw [ht]; decide
    simp only [MEMBERS, List.mem_cons, List.not_mem_nil, or_false] at hm
    rcases hm with rfl | rfl | rfl
    · rw [route_past_first_block d "Researcher" t hd2 (by decide) (by decide),
        if_neg hn]
    · rw [route_past_first_block d "Stock_Analyzer" t hd2 (by decide) (by decide),
        if_neg hn]
    · rw [route_past_first_block d "Chart_Generator" t hd2 (by decide) (by decide),
        if_neg hn]

/-- C2, witness: the amended theorem applied with current agent
`"Researcher"` and a trials dict in which the Researcher is at the ceiling
and the Stock Analyzer is below it. -/
theorem claim_C2_witness :
    supervisor_route
      (Session.mk (some "Researcher") (some [("Researcher", 1)]))
      "Researcher" = "Stock_Analyzer" ∧
    supervisor_route
      (Session.mk (some "Researcher") (some [("Researcher", 1)]))
      "Stock_Analyzer" = "Stock_Analyzer" :=
  ⟨(claim_C2 "Researcher" [("Researcher", 1)] (by decide)).1 (by decide),
   (claim_C2 "Researcher" [("Researcher", 1)] (by decide)).2.2.2
     "Stock_Analyzer" (by decide) (by decide)⟩

/-- C10: whenever the supervisor runs with no recorded current agent (the
first invocation of a run), or with the recorded current agent equal to
`"supervisor"`, or with the LLM routing back to `"supervisor"`, it returns
the first member `"Researcher"` no matter which worker the LLM decision
named. -/
theorem claim_C10 (sess : Session) (llm_next : String)
    (h : llm_next = "supervisor" ∨ sess.current_agent = none ∨
      sess.current_agent = some "supervisor") :
    supervisor_route sess llm_next = "Researcher" := by
  unfold supervisor_route
  rw [if_pos h]
  rfl

/-- C10, witness: the first supervisor invocation of a run (neither session
key set) with the LLM naming the Chart Generator still yields the
Researcher. -/
theorem claim_C10_witness :
    supervisor_route sess0 "Chart_Generator" = "Researcher" :=
  claim_C10 sess0 "Chart_Generator" (Or.inr (Or.inl rfl))

end StockAgent

/-- Looking up any key after a `pyUpdate`: the updated key now maps to the
new value, every other key is untouched. -/
theorem pyGet_overwrite {α : Type} (k : String) (v : α) :
    ∀ (d : List (String × α)) (k' : String),
      pyGet (d.map (fun p => if p.1 = k then (k, v) else p)) k' =
        if k' = k then (pyGet d k).map (fun _ => v) else pyGet d k' := by
  intro d
  induction d with
  | nil => intro k'; simp [pyGet]
  | cons p rest ih =>
    intro k'
    by_cases hp : p.1 = k
    · by_cases hk : k' = k
      · subst hk
        simp [pyGet, hp]
      · have hk2 : ¬ k = k' := fun he => hk he.symm
        simp [pyGet, hp, hk, hk2, ih]
    · by_cases hpk : p.1 = k'
      · have hk : k' ≠ k := fun he => hp (hpk.trans he)
        simp [pyGet, hp, hpk, hk]
      · simp [pyGet, hp, hpk, ih]

/-- Appending a fresh key: lookups of the new key find it, others pass
through. -/
theorem pyGet_append_new {α : Type} (k k' : String) (v : α) :
    ∀ d : List (String × α), (∀ p ∈ d, p.1 ≠ k) →
      pyGet (d ++ [(k, v)]) k' = if k' = k then some v else pyGet d k' := by
  intro d
  induction d with
  | nil =>
    intro _
    by_cases hk : k' = k
    · subst hk; simp [pyGet]
    · have hk2 : ¬ k = k' := fun he => hk he.symm
      simp [pyGet, hk, hk2]
  | cons p rest ih =>
    intro h
    by_cases hpk : p.1 = k'
    · have hk : k' ≠ k := fun he => h p (List.mem_cons_self p rest) (hpk.trans he)
      simp [pyGet, hpk, hk]
    · simp only [List.cons_append]
      rw [show pyGet (p :: (rest ++ [(k, v)])) k' =
          if p.1 = k' then some p.2 else pyGet (rest ++ [(k, v)]) k' from rfl,
        if_neg hpk, ih (fun q hq => h q (List.mem_cons_of_mem p hq)),
        show pyGet (p :: rest) k' =
          if p.1 = k' then some p.2 else pyGet rest k' from rfl,
        if_neg hpk]

/-- If some entry of `d` has key `k` then looking `k` up succeeds. -/
theorem pyGet_isSome_of_any {α : Type} (k : String) :
    ∀ d : List (String × α), d.any (fun p => p.1 = k) = true →
      (pyGet d k).isSome = true := by
  intro d
  induction d with
  | nil => intro h; simp at h
  | cons p rest ih =>
    intro h
    simp only [List.any_cons, Bool.or_eq_true, decide_eq_true_eq] at h
    by_cases hp : p.1 = k
    · simp [pyGet, hp]
    · rcases h with h | h
      · exact absurd h hp
      · simp [pyGet, hp, ih h]

/-- The lookup law of the Python dict update: the written key maps to the
new value, all other keys are unaffected. -/
theorem pyGet_pyUpdate {α : Type} (d : List (String × α)) (k k' : String)
    (v : α) :
    pyGet (pyUpdate d k v) k' = if k' = k then some v else pyGet d k' := by
  unfold pyUpdate
  by_cases h : d.any (fun p => p.1 = k)
  · rw [if_pos h, pyGet_overwrite]
    by_cases hk : k' = k
    · rw [if_pos hk, if_pos hk]
      obtain ⟨w, hw⟩ := Option.isSome_iff_exists.mp (pyGet_isSome_of_any k d h)
      rw [hw]
      rfl
    · rw [if_neg hk, if_neg hk]
  · rw [if_neg h]
    apply pyGet_append_new
    intro p hp he
    apply h
    simp only [List.any_eq_true, decide_eq_true_eq]
    exact ⟨p, hp, he⟩

/-- The key list of the Python dict update: unchanged when the key was
present, the key appended at the end otherwise. -/
theorem pyKeys_pyUpdate {α : Type} (d : List (String × α)) (k : String)
    (v : α) :
    pyKeys (pyUpdate d k v) =
      if k ∈ pyKeys d then pyKeys d else pyKeys d ++ [k] := by
  unfold pyUpdate pyKeys
  by_cases h : d.any (fun p => p.1 = k)
  · rw [if_pos h, if_pos]
    · rw [List.map_map]
      apply List.map_congr_left
      intro p hp
      by_cases hpk : p.1 = k
      · simp [hpk]
      · simp [hpk]
    · simp only [List.any_eq_true, decide_eq_true_eq] at h
      obtain ⟨p, hp, he⟩ := h
      exact List.mem_map.mpr ⟨p, hp, he⟩
  · rw [if_neg h, if_neg]
    · simp
    · intro hk
      apply h
      simp only [List.any_eq_true, decide_eq_true_eq]
      obtain ⟨p, hp, he⟩ := List.mem_map.mp hk
      exact ⟨p, hp, he⟩

/-- Entries after a `pyUpdate` are old entries or the written pair. -/
theorem pyUpdate_mem {α : Type} {d : List (String × α)} {k : String} {v : α}
    {p : String × α} (hp : p ∈ pyUpdate d k v) : p ∈ d ∨ p = (k, v) := by
  unfold pyUpdate at hp
  by_cases h : d.any (fun q => q.1 = k)
  · rw [if_pos h] at hp
    obtain ⟨q, hq, he⟩ := List.mem_map.mp hp
    by_cases hqk : q.1 = k
    · right
      rw [← he, if_pos hqk]
    · left
      rw [← he, if_neg hqk]
      exact hq
  · rw [if_neg h] at hp
    rcases List.mem_append.mp hp with h1 | h1
    · exact Or.inl h1
    · exact Or.inr (List.mem_singleton.mp h1)

/-- The written pair is always an entry after a `pyUpdate`. -/
theorem pyUpdate_self_mem {α : Type} (d : List (String × α)) (k : String)
    (v : α) : (k, v) ∈ pyUpdate d k v := by
  unfold pyUpdate
  by_cases h : d.any (fun q => q.1 = k)
  · rw [if_pos h]
    simp only [List.any_eq_true, decide_eq_true_eq] at h
    obtain ⟨q, hq, he⟩ := h
    exact List.mem_map.mpr ⟨q, hq, by rw [if_pos he]⟩
  · rw [if_neg h]
    exact List.mem_append.mpr (Or.inr (List.mem_singleton.mpr rfl))

/-- Entries whose key differs from the written one survive a `pyUpdate`. -/
theorem pyUpdate_mem_keep {α : Type} {d : List (String × α)} {k : String}
    {v : α} {p : String × α} (hp : p ∈ d) (hne : p.1 ≠ k) :
    p ∈ pyUpdate d k v := by
  unfold pyUpdate
  by_cases h : d.any (fun q => q.1 = k)
  · rw [if_pos h]
    exact List.mem_map.mpr ⟨p, hp, by rw [if_neg hne]⟩
  · rw [if_neg h]
    exact List.mem_append.mpr (Or.inl hp)

namespace Newsletter

/-- The tool call never raises: it returns the sub-theme as key with the
article list of the outcome (the `except` branch yields the empty list). -/
theorem search_news_for_subtheme_eq (s : String) (o : SearchOutcome) :
    search_news_for_subtheme s o = (s, articlesOf o) := by
  cases o <;> rfl

/-- C4: the theme step stores the generated sub-theme list truncated to its
first 5 entries — exactly 5, in original order, when more than 5 were
generated, and the list unchanged when 5 or fewer were generated. -/
theorem claim_C4 (llm_output : NewsletterThemeOutput) :
    (5 < llm_output.sub_themes.length →
      (generate_themes llm_output).sub_themes = llm_output.sub_themes.take 5 ∧
      (generate_themes llm_output).sub_themes.length = 5) ∧
    (llm_output.sub_themes.length ≤ 5 →
      (generate_themes llm_output).sub_themes = llm_output.sub_themes) := by
  constructor
  · intro h
    refine ⟨rfl, ?_⟩
    simp only [generate_themes, List.length_take]
    omega
  · intro h
    simp only [generate_themes]
    exact List.take_of_length_le h

/-- C4, witness: the truncation theorem applied to a generated list of 7
sub-themes and to one of 2 sub-themes. -/
theorem claim_C4_witness :
    (generate_themes
      (NewsletterThemeOutput.mk "t" ["a", "b", "c", "d", "e", "f", "g"])).sub_themes =
      ["a", "b", "c", "d", "e"] ∧
    (generate_themes (NewsletterThemeOutput.mk "t" ["a", "b"])).sub_themes =
      ["a", "b"] := by
  have h1 := (claim_C4
    (NewsletterThemeOutput.mk "t" ["a", "b", "c", "d", "e", "f", "g"])).1
    (by decide)
  have h2 := (claim_C4 (NewsletterThemeOutput.mk "t" ["a", "b"])).2 (by decide)
  exact ⟨h1.1, h2⟩

/-- Folding string appends from an initial document equals the initial
document followed by the concatenation of the pieces in order. -/
theorem foldl_append_concat (g : String × String → String) :
    ∀ (l : List (String × String)) (a : String),
      l.foldl (fun acc p => acc ++ g p) a = a ++ concatStrings (l.map g) := by
  intro l
  induction l with
  | nil =>
    intro a
    show a = a ++ ""
    rw [String.append_empty]
  | cons p rest ih =>
    intro a
    show List.foldl _ (a ++ g p) rest =
      a ++ (g p ++ concatStrings (rest.map g))
    rw [ih (a ++ g p), String.append_assoc]

/-- C5: the aggregation step produces the theme heading followed by one
`"## sub_theme\ncontent\n\n"` section per entry of the results mapping, in
order — nothing dropped, nothing reordered. -/
theorem claim_C5 (theme : String) (results : List (String × String)) :
    aggregate_results theme results =
      ("# " ++ theme ++ "\n\n") ++
        concatStrings
          (results.map (fun p => "## " ++ p.1 ++ "\n" ++ p.2 ++ "\n\n")) :=
  foldl_append_concat _ results _

/-- C9: the theme step does not pad a short list — when the LLM generated
fewer than 5 sub-themes the stored list is the generated one — and then at
least one of the five fan-out writing nodes (the one indexing at the list
length) fails with an index-out-of-range error. -/
theorem claim_C9 (llm_output : NewsletterThemeOutput)
    (h : llm_output.sub_themes.length < 5) :
    (generate_themes llm_output).sub_themes = llm_output.sub_themes ∧
    ∃ i, i < 5 ∧
      write_section_node i (generate_themes llm_output).sub_themes =
        Except.error "IndexError: list index out of range" := by
  have heq : (generate_themes llm_output).sub_themes = llm_output.sub_themes :=
    List.take_of_length_le (Nat.le_of_lt h)
  refine ⟨heq, llm_output.sub_themes.length, h, ?_⟩
  unfold write_section_node
  rw [heq, List.get?_eq_none.mpr (le_refl _)]

/-- Every entry of the searched dict is an accumulator entry or carries a
searched article list for a sub-theme. -/
theorem search_fold_mem (search : String → SearchOutcome) :
    ∀ (l : List String) (acc : List (String × List Article))
      (p : String × List Article),
      (∀ q ∈ acc, q.2 = articlesOf (search q.1)) →
      p ∈ (l.map (fun s => search_news_for_subtheme s (search s))).foldl
        (fun a q => pyUpdate a q.1 q.2) acc →
      (p ∈ acc ∨ p.1 ∈ l) ∧ p.2 = articlesOf (search p.1) := by
  intro l
  induction l with
  | nil =>
    intro acc p hinv hp
    exact ⟨Or.inl hp, hinv p hp⟩
  | cons s rest ih =>
    intro acc p hinv hp
    rw [List.map_cons, List.foldl_cons, search_news_for_subtheme_eq] at hp
    have hinv2 : ∀ q ∈ pyUpdate acc s (articlesOf (search s)),
        q.2 = articlesOf (search q.1) := by
      intro q hq
      rcases pyUpdate_mem hq with h1 | h1
      · exact hinv q h1
      · rw [h1]
    obtain ⟨hmem, hval⟩ := ih (pyUpdate acc s (articlesOf (search s))) p hinv2 hp
    refine ⟨?_, hval⟩
    rcases hmem with h1 | h1
    · rcases pyUpdate_mem h1 with h2 | h2
      · exact Or.inl h2
      · right
        rw [h2]
        exact List.mem_cons_self s rest
    · exact Or.inr (List.mem_cons_of_mem s h1)

/-- An entry whose value matches its own search outcome survives the whole
fan-out fold. -/
theorem search_fold_keep (search : String → SearchOutcome) :
    ∀ (l : List String) (acc : List (String × List Article))
      (p : String × List Article),
      p ∈ acc → p.2 = articlesOf (search p.1) →
      p ∈ (l.map (fun s => search_news_for_subtheme s (search s))).foldl
        (fun a q => pyUpdate a q.1 q.2) acc := by
  intro l
  induction l with
  | nil => intro acc p hp _; exact hp
  | cons s rest ih =>
    intro acc p hp hval
    rw [List.map_cons, List.foldl_cons, search_news_for_subtheme_eq]
    apply ih _ p _ hval
    by_cases hps : p.1 = s
    · have hpe : p = (s, articlesOf (search s)) := by
        obtain ⟨p1, p2⟩ := p
        simp only at hps hval
        rw [hps] at hval ⊢
        rw [hval]
      rw [hpe]
      exact pyUpdate_self_mem _ _ _
    · exact pyUpdate_mem_keep hp hps

/-- Every searched sub-theme contributes its own keyed entry to the dict. -/
theorem search_fold_covers (search : String → SearchOutcome) :
    ∀ (l : List String) (acc : List (String × List Article)) (s : String),
      s ∈ l →
      (s, articlesOf (search s)) ∈
        (l.map (fun x => search_news_for_subtheme x (search x))).foldl
          (fun a q => pyUpdate a q.1 q.2) acc := by
  intro l
  induction l with
  | nil => intro acc s hs; cases hs
  | cons x rest ih =>
    intro acc s hs
    rw [List.map_cons, List.foldl_cons, search_news_for_subtheme_eq]
    rcases List.mem_cons.mp hs with h1 | h1
    · subst h1
      exact search_fold_keep search rest _ _ (pyUpdate_self_mem _ _ _) rfl
    · exact ih _ s h1

/-- C3: the tool step never raises — an empty or failed sub-theme search
yields the empty-but-valid record keyed by that sub-theme — and the
fan-out step raises the "no content" failure exactly when every searched
sub-theme yielded zero articles; when at least one sub-theme has articles
the step returns the merged dict normally. -/
theorem claim_C3 (subthemes : List String) (search : String → SearchOutcome) :
    (∀ s, search_news_for_subtheme s SearchOutcome.err = (s, [])) ∧
    (∀ s arts, search_news_for_subtheme s (SearchOutcome.ok arts) = (s, arts)) ∧
    (search_sub_theme_articles subthemes search = Except.error noContentMsg ↔
      ∀ s ∈ subthemes, articlesOf (search s) = []) ∧
    ((∃ s ∈ subthemes, articlesOf (search s) ≠ []) →
      ∃ d, search_sub_theme_articles subthemes search = Except.ok d) := by
  have hiff :
      ((subthemes.map (fun s => search_news_for_subtheme s (search s))).foldl
          (fun a q => pyUpdate a q.1 q.2) []).all (fun p => p.2.isEmpty) = true ↔
        ∀ s ∈ subthemes, articlesOf (search s) = [] := by
    rw [List.all_eq_true]
    constructor
    · intro hall s hs
      have hm := search_fold_covers search subthemes [] s hs
      have := hall _ hm
      exact List.isEmpty_iff.mp this
    · intro hforall p hp
      obtain ⟨hmem, hval⟩ :=
        search_fold_mem search subthemes [] p (by intro q hq; cases hq) hp
      rcases hmem with h1 | h1
      · cases h1
      · rw [hval]
        exact List.isEmpty_iff.mpr (hforall p.1 h1)
  refine ⟨fun s => rfl, fun s arts => rfl, ?_, ?_⟩
  · unfold search_sub_theme_articles
    constructor
    · intro herr
      apply hiff.mp
      by_contra hc
      rw [if_neg hc] at herr
      cases herr
    · intro hforall
      rw [if_pos (hiff.mpr hforall)]
  · intro hne
    unfold search_sub_theme_articles
    rw [if_neg]
    · exact ⟨_, rfl⟩
    · intro hall
      obtain ⟨s, hs, hsne⟩ := hne
      exact hsne (hiff.mp hall s hs)

/-- C3, witness: with both sub-theme searches failing the step raises the
"no content" error; with one sub-theme finding an article the step
succeeds. -/
theorem claim_C3_witness :
    (search_sub_theme_articles ["a", "b"] (fun _ => SearchOutcome.err) =
      Except.error noContentMsg) ∧
    (∃ d, search_sub_theme_articles ["a", "b"]
        (fun s => if s = "a" then SearchOutcome.ok [Article.mk "t" "" "c"]
          else SearchOutcome.err) = Except.ok d) := by
  constructor
  · exact (claim_C3 ["a", "b"] (fun _ => SearchOutcome.err)).2.2.1.mpr
      (by intro s hs; rfl)
  · exact (claim_C3 ["a", "b"]
      (fun s => if s = "a" then SearchOutcome.ok [Article.mk "t" "" "c"]
        else SearchOutcome.err)).2.2.2
      ⟨"a", List.mem_cons_self "a" ["b"], by decide⟩

/-- Merging the single-key updates of the writing steps in order appends
one fresh key per step: the merged keys are the accumulator keys followed
by the assigned sub-themes. -/
theorem mergedResults_keys (texts : String → String) :
    ∀ (subs : List String) (acc : List (String × String)),
      subs.Nodup → (∀ s ∈ subs, s ∉ pyKeys acc) →
      pyKeys ((subs.map (fun s => write_section s (texts s))).foldl
          merge_dicts acc) =
        pyKeys acc ++ subs := by
  intro subs
  induction subs with
  | nil => intro acc _ _; simp
  | cons s rest ih =>
    intro acc hnd hna
    have hs : s ∉ pyKeys acc := hna s (List.mem_cons_self s rest)
    have h1 : pyKeys (pyUpdate acc s (texts s)) = pyKeys acc ++ [s] := by
      rw [pyKeys_pyUpdate, if_neg hs]
    have hpre : ∀ x ∈ rest, x ∉ pyKeys (pyUpdate acc s (texts s)) := by
      intro x hx
      rw [h1]
      intro hmem
      rcases List.mem_append.mp hmem with h2 | h2
      · exact hna x (List.mem_cons_of_mem s hx) h2
      · rw [List.mem_singleton.mp h2] at hx
        exact (List.nodup_cons.mp hnd).1 hx
    rw [List.map_cons, List.foldl_cons,
      show merge_dicts acc (write_section s (texts s)) =
        pyUpdate acc s (texts s) from rfl,
      ih (pyUpdate acc s (texts s)) (List.nodup_cons.mp hnd).2 hpre, h1,
      List.append_assoc]
    rfl

/-- C6: in the executor schedule the five writing steps form one superstep
and the aggregation step runs alone in the following superstep (the join
barrier), and for pairwise-distinct assigned sub-themes the merged
`results` dict holds exactly 5 distinct keys, one per writing step. -/
theorem claim_C6 (subs : List String) (texts : String → String)
    (hlen : subs.length = 5) (hnd : subs.Nodup) :
    newsletterSchedule.get? 3 =
      some ["write_section_0", "write_section_1", "write_section_2",
        "write_section_3", "write_section_4"] ∧
    newsletterSchedule.get? 4 = some ["aggregate"] ∧
    pyKeys (mergedResults subs texts) = subs ∧
    (pyKeys (mergedResults subs texts)).length = 5 ∧
    (pyKeys (mergedResults subs texts)).Nodup := by
  have hkeys : pyKeys (mergedResults subs texts) = subs := by
    have := mergedResults_keys texts subs [] hnd (by intro s _; simp [pyKeys])
    rw [mergedResults, this]
    rfl
  refine ⟨by decide, by decide, hkeys, ?_, ?_⟩
  · rw [hkeys, hlen]
  · rw [hkeys]
    exact hnd

/-- C6, witness: the join-and-keys theorem applied to five concrete
pairwise-distinct sub-themes. -/
theorem claim_C6_witness :
    newsletterSchedule.get? 4 = some ["aggregate"] ∧
    pyKeys (mergedResults ["s1", "s2", "s3", "s4", "s5"] (fun s => s)) =
      ["s1", "s2", "s3", "s4", "s5"] := by
  have h := claim_C6 ["s1", "s2", "s3", "s4", "s5"] (fun s => s)
    (by decide) (by decide)
  exact ⟨h.2.1, h.2.2.1⟩

/-- C7: the executor schedule of the newsletter graph (which has no
conditional edges) is the six-superstep sequence in which every declared
step appears exactly once, and every declared edge goes from an earlier
superstep to a later one (start and end markers aside) — a topological
order consistent with the declared edges. -/
theorem claim_C7 :
    newsletterSchedule =
      [["search_news"], ["generate_themes"], ["search_sub_theme_articles"],
       ["write_section_0", "write_section_1", "write_section_2",
        "write_section_3", "write_section_4"],
       ["aggregate"], ["edit_newsletter"]] ∧
    newsletterSchedule.flatten = newsletterNodes ∧
    (newsletterNodes.all
      (fun n => newsletterSchedule.flatten.count n == 1)) = true ∧
    (newsletterEdges.all (fun e =>
      e.1 == "START" || e.2 == "END" ||
        (newsletterSchedule.findIdx (fun lvl => lvl.contains e.1) <
          newsletterSchedule.findIdx (fun lvl => lvl.contains e.2)))) = true := by
  refine ⟨by decide, by decide, by decide, by decide⟩

/-- The lookup law of `merge_dicts` for an update whose keys are distinct:
keys of the incoming dict take its values, all other keys keep the values
of the existing dict. -/
theorem pyGet_merge_dicts (k : String) :
    ∀ (r l : List (String × String)), (pyKeys r).Nodup →
      pyGet (merge_dicts l r) k =
        if k ∈ pyKeys r then pyGet r k else pyGet l k := by
  intro r
  induction r with
  | nil => intro l _; simp [merge_dicts, pyKeys, pyGet]
  | cons p r2 ih =>
    intro l hk
    obtain ⟨p1, p2⟩ := p
    have hk2 : (pyKeys r2).Nodup := (List.nodup_cons.mp hk).2
    have hp1 : p1 ∉ pyKeys r2 := by
      have := (List.nodup_cons.mp hk).1
      simpa [pyKeys] using this
    rw [show merge_dicts l ((p1, p2) :: r2) =
        merge_dicts (pyUpdate l p1 p2) r2 from rfl,
      ih (pyUpdate l p1 p2) hk2, pyGet_pyUpdate]
    by_cases h1 : k ∈ pyKeys r2
    · have hne : p1 ≠ k := fun he => hp1 (he ▸ h1)
      rw [if_pos h1, if_pos (show k ∈ pyKeys ((p1, p2) :: r2) from
        List.mem_cons_of_mem p1 h1),
        show pyGet ((p1, p2) :: r2) k =
          if p1 = k then some p2 else pyGet r2 k from rfl,
        if_neg hne]
    · rw [if_neg h1]
      by_cases h2 : k = p1
      · subst h2
        rw [if_pos (show k ∈ pyKeys ((k, p2) :: r2) from
          List.mem_cons_self k _),
          show pyGet ((k, p2) :: r2) k =
            if k = k then some p2 else pyGet r2 k from rfl,
          if_pos rfl, if_pos rfl]
      · have hnm : k ∉ pyKeys ((p1, p2) :: r2) := by
          intro hmem
          rcases List.mem_cons.mp hmem with h3 | h3
          · exact h2 h3
          · exact h1 h3
        rw [if_neg h2, if_neg hnm]

/-- C8: the per-field merge policy of the newsletter state — `results`
merges by right-biased dict union (incoming entries win, existing keys
absent from the update survive), `messages` merges by append, and every
other field is replaced by the incoming value when the update carries
one. -/
theorem claim_C8 (s : State) (u : StateUpdate) :
    (∀ r, u.results = some r → (pyKeys r).Nodup →
      ∀ k, pyGet (mergeState s u).results k =
        if k ∈ pyKeys r then pyGet r k else pyGet s.results k) ∧
    (∀ m, u.messages = some m →
      (mergeState s u).messages = s.messages ++ m) ∧
    (u.results = none → (mergeState s u).results = s.results) ∧
    (u.messages = none → (mergeState s u).messages = s.messages) ∧
    (∀ v, u.keyword = some v → (mergeState s u).keyword = v) ∧
    (∀ v, u.article_titles = some v → (mergeState s u).article_titles = v) ∧
    (∀ v, u.newsletter_theme = some v →
      (mergeState s u).newsletter_theme = v) ∧
    (∀ v, u.sub_theme_articles = some v →
      (mergeState s u).sub_theme_articles = v) ∧
    (∀ v, u.language = some v → (mergeState s u).language = v) := by
  refine ⟨?_, ?_, ?_, ?_, ?_, ?_, ?_, ?_, ?_⟩
  · intro r hr hk k
    simp only [mergeState, hr]
    exact pyGet_merge_dicts k r s.results hk
  · intro m hm
    simp only [mergeState, hm, add_messages]
  · intro h; simp only [mergeState, h]
  · intro h; simp only [mergeState, h]
  · intro v h; simp only [mergeState, h, Option.getD_some]
  · intro v h; simp only [mergeState, h, Option.getD_some]
  · intro v h; simp only [mergeState, h, Option.getD_some]
  · intro v h; simp only [mergeState, h, Option.getD_some]
  · intro v h; simp only [mergeState, h, Option.getD_some]

/-- C8, witness: the merge-policy theorem applied to a concrete state and a
concrete update touching `results`, `messages` and `keyword`. -/
theorem claim_C8_witness :
    pyGet
      (mergeState
        (State.mk "k" [] (NewsletterThemeOutput.mk "t" []) []
          [("a", "old"), ("b", "keep")] ["m1"] "English")
        (StateUpdate.mk (some "k2") none none none (some [("a", "new")])
          (some ["m2"]) none)).results "a" =
      (if "a" ∈ pyKeys [("a", "new")] then pyGet [("a", "new")] "a"
        else pyGet [("a", "old"), ("b", "keep")] "a") ∧
    (mergeState
        (State.mk "k" [] (NewsletterThemeOutput.mk "t" []) []
          [("a", "old"), ("b", "keep")] ["m1"] "English")
        (StateUpdate.mk (some "k2") none none none (some [("a", "new")])
          (some ["m2"]) none)).messages = ["m1"] ++ ["m2"] ∧
    (mergeState
        (State.mk "k" [] (NewsletterThemeOutput.mk "t" []) []
          [("a", "old"), ("b", "keep")] ["m1"] "English")
        (StateUpdate.mk (some "k2") none none none (some [("a", "new")])
          (some ["m2"]) none)).keyword = "k2" := by
  have h := claim_C8
    (State.mk "k" [] (NewsletterThemeOutput.mk "t" []) []
      [("a", "old"), ("b", "keep")] ["m1"] "English")
    (StateUpdate.mk (some "k2") none none none (some [("a", "new")])
      (some ["m2"]) none)
  exact ⟨h.1 [("a", "new")] rfl (by decide) "a", h.2.1 ["m2"] rfl,
    h.2.2.2.2.1 "k2" rfl⟩

/-- C9, witness: a generated list of 3 sub-themes makes the writing node
indexing position 3 fail. -/
theorem claim_C9_witness :
    (generate_themes (NewsletterThemeOutput.mk "t" ["a", "b", "c"])).sub_themes =
      ["a", "b", "c"] ∧
    ∃ i, i < 5 ∧
      write_section_node i
        (generate_themes (NewsletterThemeOutput.mk "t" ["a", "b", "c"])).sub_themes =
        Except.error "IndexError: list index out of range" :=
  claim_C9 (NewsletterThemeOutput.mk "t" ["a", "b", "c"]) (by decide)

end Newsletter
